import Mathlib

/-!
# Verification of the vivisys frontend API client and page controllers

A shallow embedding, in Lean 4, of the parts of the repository that the
specification talks about:

* `src/lib/api.ts` — the HTTP request client (`request`), the token store
  (`getToken` / `setToken` / `clearToken`), and the `api.*` path builders
  that interpolate identifiers via `encodeURIComponent`;
* `src/app/_components/ConsentDashboard.tsx` — the `statusPill` status law;
* `src/app/patient/page.tsx` — `isAuthErrorMessage`, `handleAuthFailure`,
  the shared catch block of the patient page actions, and the catalog
  wizard (`clampCatStep`, the three auto-advance effects, the Create & Link
  button's enablement condition);
* `src/app/doctor/page.tsx` — `fetchRecords`'s error path;
* `src/unnamed/part_000` — the older variant of `request` whose header
  defaults differ from the live `src/lib/api.ts`.

JavaScript objects used as string-keyed header maps are modelled as
association lists with overwrite-on-assign semantics, matching object
spread `{...base, ...caller}` followed by `headers[k] = v` assignments.
-/

namespace Vivisys

/-! ## Header maps (JS objects holding `Record<string, string>`) -/

/-- Read a key from a header object: the first entry with that key
(keys are unique by construction of `hset`). -/
def hget (hs : List (String × String)) (k : String) : Option String :=
  (hs.find? (fun p => p.1 == k)).map (fun p => p.2)

/-- Membership test mirroring JS `k in headers`. -/
def hasKey (hs : List (String × String)) (k : String) : Bool :=
  hs.any (fun p => p.1 == k)

/-- JS property assignment `headers[k] = v`: overwrite the existing entry
for `k` if there is one, otherwise append a new entry. -/
def hset (hs : List (String × String)) (k v : String) : List (String × String) :=
  if hasKey hs k then
    hs.map (fun p => if p.1 == k then (k, v) else p)
  else
    hs ++ [(k, v)]

/-- Object spread `{...base, ...caller}`: caller entries overwrite base. -/
def hmerge (base caller : List (String × String)) : List (String × String) :=
  caller.foldl (fun acc p => hset acc p.1 p.2) base

theorem hget_hset_self (hs : List (String × String)) (k v : String) :
    hget (hset hs k v) k = some v := by
  unfold hset hasKey
  by_cases h : hs.any (fun p => p.1 == k)
  · simp only [h, if_pos]
    induction hs with
    | nil => simp at h
    | cons p t ih =>
      simp only [List.any_cons, Bool.or_eq_true] at h
      by_cases hp : p.1 == k
      · simp [hget, List.find?, hp]
      · have ht : t.any (fun p => p.1 == k) := by
          rcases h with h | h
          · exact absurd h hp
          · exact h
        simp only [List.map_cons, if_neg hp]
        have := ih ht
        simpa [hget, List.find?, hp] using this
  · simp only [h, if_neg, Bool.false_eq_true, not_false_iff]
    induction hs with
    | nil => simp [hget]
    | cons p t ih =>
      simp only [List.any_cons, Bool.or_eq_true, not_or] at h
      obtain ⟨hp, ht⟩ := h
      have hpb : (p.1 == k) = false := by
        simpa using hp
      simp only [List.cons_append, hget, List.find?, hpb]
      exact ih (by simpa using ht)

theorem hget_map_overwrite (t : List (String × String)) (k k' v : String)
    (hne : k' ≠ k) :
    hget (t.map (fun p => if p.1 == k' then (k', v) else p)) k = hget t k := by
  induction t with
  | nil => rfl
  | cons p t ih =>
    by_cases hp : p.1 == k'
    · have hpk : p.1 = k' := by simpa using hp
      have hpkf : (p.1 == k) = false := by
        simp [hpk]
        exact hne
      have hk'f : (k' == k) = false := by simpa using hne
      simp only [List.map_cons, if_pos hp, hget, List.find?, hk'f, hpkf]
      simpa [hget] using ih
    · simp only [List.map_cons, if_neg hp]
      by_cases hq : p.1 == k
      · simp [hget, List.find?, hq]
      · simp only [hget, List.find?, hq]
        simpa [hget] using ih

theorem hget_append_single (t : List (String × String)) (k k' v : String)
    (hne : k' ≠ k) :
    hget (t ++ [(k', v)]) k = hget t k := by
  have hk'f : (k' == k) = false := by simpa using hne
  induction t with
  | nil => simp [hget, List.find?, hk'f]
  | cons p t ih =>
    by_cases hq : p.1 == k
    · simp [hget, List.find?, hq]
    · simp only [List.cons_append, hget, List.find?, hq]
      simpa [hget] using ih

theorem hget_hset_other (hs : List (String × String)) (k k' v : String)
    (hne : k' ≠ k) :
    hget (hset hs k' v) k = hget hs k := by
  unfold hset
  by_cases h : hasKey hs k'
  · simp only [h, if_pos]
    exact hget_map_overwrite hs k k' v hne
  · simp only [h, Bool.false_eq_true, if_neg, not_false_iff]
    exact hget_append_single hs k k' v hne

theorem hget_hmerge_absent (base caller : List (String × String)) (k : String)
    (hc : ∀ p ∈ caller, p.1 ≠ k) :
    hget (hmerge base caller) k = hget base k := by
  induction caller generalizing base with
  | nil => rfl
  | cons p t ih =>
    have hp : p.1 ≠ k := hc p (List.mem_cons_self p t)
    have ht : ∀ q ∈ t, q.1 ≠ k := fun q hq => hc q (List.mem_cons_of_mem p hq)
    simp only [hmerge, List.foldl_cons]
    have := ih (hset base p.1 p.2) ht
    simpa [hmerge, hget_hset_other base k p.1 p.2 hp] using this

/-- Absence law: `hget hs k = none` iff no entry of `hs` has key `k`. -/
theorem hget_eq_none_iff (hs : List (String × String)) (k : String) :
    hget hs k = none ↔ ∀ p ∈ hs, p.1 ≠ k := by
  unfold hget
  rw [Option.map_eq_none', List.find?_eq_none]
  constructor
  · intro h p hp
    have := h p hp
    simpa using this
  · intro h p hp
    have := h p hp
    simpa using this

/-! ## JavaScript values flowing out of `JSON.parse` / `res.text()`

`src/lib/api.ts` parses the response body with `JSON.parse` and falls back
to the raw text.  We model the JSON data domain with integers for numbers
(floating point is outside the model; none of the claims depend on
fractional numbers). -/

inductive Json where
  | null : Json
  | bool : Bool → Json
  | num : Int → Json
  | str : String → Json
  | arr : List Json → Json
  | obj : List (String × Json) → Json

/-- JS truthiness of a JSON value (`null`, `false`, `0`, `""` are falsy;
arrays and objects are always truthy). -/
def truthy : Json → Bool
  | .null => false
  | .bool b => b
  | .num n => n != 0
  | .str s => s != ""
  | .arr _ => true
  | .obj _ => true

/-- JS property access `data?.k` for parsed JSON data: defined only on
objects (strings, numbers, arrays and `null` yield `undefined`, here
`none`).  `JSON.parse` keeps the *last* duplicate key, hence
`reverse.find?`. -/
def jsField (j : Json) (k : String) : Option Json :=
  match j with
  | .obj fs => (fs.reverse.find? (fun p => p.1 == k)).map (fun p => p.2)
  | _ => none

mutual

/-- JS string coercion `String(v)` (what `new Error(v).message` holds). -/
def jsToString : Json → String
  | .null => "null"
  | .bool true => "true"
  | .bool false => "false"
  | .num n => toString n
  | .str s => s
  | .arr xs => String.intercalate "," (jsItems xs)
  | .obj _ => "[object Object]"

/-- Coercion `Array.prototype.toString` renders `null` elements as empty strings. -/
def jsItems : List Json → List String
  | [] => []
  | .null :: rest => "" :: jsItems rest
  | j :: rest => jsToString j :: jsItems rest

end

/-! ### A JSON parser (the subset of `JSON.parse` the claims exercise)

Numbers are restricted to optionally-signed integer literals; fractional
and exponent forms are outside the model, as are `\\u` escapes encoding
surrogate halves.  All theorems below that quantify over bodies do so via
the *outcome* of the parse, so this restriction only constrains the
concrete inputs used in witnesses and counterexamples. -/

def jsonWs (c : Char) : Bool :=
  c == ' ' || c == '\n' || c == '\t' || c == '\r'

def skipWs (cs : List Char) : List Char :=
  cs.dropWhile jsonWs

def hexVal (c : Char) : Option Nat :=
  if c.isDigit then some (c.toNat - 48)
  else if 'a' ≤ c && c ≤ 'f' then some (c.toNat - 87)
  else if 'A' ≤ c && c ≤ 'F' then some (c.toNat - 55)
  else none

/-- Parse the inside of a JSON string literal (after the opening quote),
accumulating characters in reverse. -/
def pStrAux : List Char → List Char → Option (String × List Char)
  | _, [] => none
  | acc, '\"' :: rest => some (String.mk acc.reverse, rest)
  | acc, '\\' :: e :: rest =>
    if e = '\"' then pStrAux ('\"' :: acc) rest
    else if e = '\\' then pStrAux ('\\' :: acc) rest
    else if e = '/' then pStrAux ('/' :: acc) rest
    else if e = 'n' then pStrAux ('\n' :: acc) rest
    else if e = 't' then pStrAux ('\t' :: acc) rest
    else if e = 'r' then pStrAux ('\r' :: acc) rest
    else if e = 'b' then pStrAux (Char.ofNat 8 :: acc) rest
    else if e = 'f' then pStrAux (Char.ofNat 12 :: acc) rest
    else if e = 'u' then
      match rest with
      | a :: b :: c :: d :: rest' =>
        match hexVal a, hexVal b, hexVal c, hexVal d with
        | some x, some y, some z, some w =>
          let n := ((x * 16 + y) * 16 + z) * 16 + w
          if 0xd800 ≤ n && n < 0xe000 then none
          else pStrAux (Char.ofNat n :: acc) rest'
        | _, _, _, _ => none
      | _ => none
    else none
  | acc, c :: rest =>
    if c.toNat < 32 then none else pStrAux (c :: acc) rest

def pDigits : List Char → Nat → Option (Nat × List Char)
  | [], acc => some (acc, [])
  | c :: rest, acc =>
    if c.isDigit then pDigits rest (acc * 10 + (c.toNat - 48))
    else some (acc, c :: rest)

/-- Parse a JSON integer literal (sign, then digits; leading zeros are
only legal for the literal `0` itself). -/
def pNum (cs : List Char) : Option (Json × List Char) :=
  let core : List Char → Option (Json × List Char) := fun ds =>
    match ds with
    | [] => none
    | c :: rest =>
      if c = '0' then
        match rest with
        | d :: _ => if d.isDigit then none else some (Json.num 0, rest)
        | [] => some (Json.num 0, [])
      else if c.isDigit then
        match pDigits rest (c.toNat - 48) with
        | some (n, rest') => some (Json.num (Int.ofNat n), rest')
        | none => none
      else none
  match cs with
  | '-' :: rest =>
    match core rest with
    | some (Json.num n, rest') => some (Json.num (-n), rest')
    | _ => none
  | _ => core cs

mutual

def pVal : Nat → List Char → Option (Json × List Char)
  | 0, _ => none
  | Nat.succ fuel, cs =>
    match skipWs cs with
    | [] => none
    | 'n' :: 'u' :: 'l' :: 'l' :: rest => some (Json.null, rest)
    | 't' :: 'r' :: 'u' :: 'e' :: rest => some (Json.bool true, rest)
    | 'f' :: 'a' :: 'l' :: 's' :: 'e' :: rest => some (Json.bool false, rest)
    | '\"' :: rest =>
      match pStrAux [] rest with
      | some (s, rest') => some (Json.str s, rest')
      | none => none
    | c :: rest =>
      if c = Char.ofNat 91 then
        match skipWs rest with
        | c' :: rest' =>
          if c' = Char.ofNat 93 then some (Json.arr [], rest')
          else pArrItems fuel [] (c' :: rest')
        | [] => none
      else if c = Char.ofNat 123 then
        match skipWs rest with
        | c' :: rest' =>
          if c' = Char.ofNat 125 then some (Json.obj [], rest')
          else pObjItems fuel [] (c' :: rest')
        | [] => none
      else pNum (c :: rest)

def pArrItems : Nat → List Json → List Char → Option (Json × List Char)
  | 0, _, _ => none
  | Nat.succ fuel, acc, cs =>
    match pVal fuel cs with
    | some (j, rest) =>
      match skipWs rest with
      | ',' :: rest' => pArrItems fuel (j :: acc) rest'
      | c :: rest' =>
        if c = Char.ofNat 93 then some (Json.arr (j :: acc).reverse, rest')
        else none
      | [] => none
    | none => none

def pObjItems : Nat → List (String × Json) → List Char →
    Option (Json × List Char)
  | 0, _, _ => none
  | Nat.succ fuel, acc, cs =>
    match skipWs cs with
    | '\"' :: rest =>
      match pStrAux [] rest with
      | some (k, rest') =>
        match skipWs rest' with
        | ':' :: rest'' =>
          match pVal fuel rest'' with
          | some (v, rest''') =>
            match skipWs rest''' with
            | ',' :: more => pObjItems fuel ((k, v) :: acc) more
            | c :: more =>
              if c = Char.ofNat 125 then
                some (Json.obj ((k, v) :: acc).reverse, more)
              else none
            | [] => none
          | none => none
        | _ => none
      | none => none
    | _ => none

end

/-- Top level of `JSON.parse` on a whole body: one value, then only whitespace. -/
def jsonParse (s : String) : Option Json :=
  match pVal (s.length + 2) s.data with
  | some (j, rest) => if (skipWs rest).isEmpty then some j else none
  | none => none

/-! ## The HTTP request client (`request` in `src/lib/api.ts`) -/

/-- Default `API_BASE`; `NEXT_PUBLIC_API_BASE` may override it at
build time, which no claim depends on. -/
def API_BASE : String := "http://localhost:8000"

/-- Lines 67–73: `const text = await res.text(); let data = null;
try { data = text ? JSON.parse(text) : null; } catch { data = text; }`. -/
def bodyToData (text : String) : Json :=
  if text = "" then Json.null
  else
    match jsonParse text with
    | some j => j
    | none => Json.str text

/-- The first truthy value, or `none` — one link of the `||` chain
(`undefined` and falsy values both fall through). -/
def pickTruthy (v : Option Json) : Option Json :=
  match v with
  | some j => if truthy j then some j else none
  | none => none

/-- Lines 76–80: `data?.detail || data?.message ||
(typeof data === "string" ? data : null) || `Request failed (status)``. -/
def errMsgVal (data : Json) (status : Nat) : Json :=
  match pickTruthy (jsField data "detail") with
  | some v => v
  | none =>
    match pickTruthy (jsField data "message") with
    | some v => v
    | none =>
      match pickTruthy (match data with | .str s => some (.str s) | _ => none) with
      | some v => v
      | none => .str ("Request failed (" ++ toString status ++ ")")

/-- The `.message` of the `Error` thrown on a non-2xx response
(`new Error(msg)` coerces a non-string `msg` to a string). -/
def errorMessage (data : Json) (status : Nat) : String :=
  jsToString (errMsgVal data status)

/-- Lines 67–84 of `request`: parse the body, then either throw
(`.error`) with the extracted message or resolve (`.ok`) with the data. -/
def handleResponse (ok : Bool) (status : Nat) (text : String) :
    Except String Json :=
  let data := bodyToData text
  if ok then .ok data
  else .error (errorMessage data status)

/-- Lines 42–45: `const headers = { "Content-Type": "application/json",
...(options.headers) }` — note the live client has no `Accept` default
and sets `Content-Type` whether or not a body is present. -/
def baseHeaders (callerHeaders : List (String × String)) :
    List (String × String) :=
  hmerge [("Content-Type", "application/json")] callerHeaders

/-- Lines 42–50: the headers the live client sends, after the `auth`
branch (`if (token) headers["Authorization"] = `Bearer ${token}``). -/
def requestHeaders (callerHeaders : List (String × String)) (auth : Bool)
    (token : Option String) : List (String × String) :=
  let hs := baseHeaders callerHeaders
  if auth then
    match token with
    | some t => hset hs "Authorization" ("Bearer " ++ t)
    | none => hs
  else hs

/-- The browser's `localStorage` as far as `src/lib/api.ts` touches it:
the single key `medaryx_token`. -/
structure Store where
  token : Option String

/-- Embeds `getToken()` (lines 13–16): reads the store, returns it unchanged. -/
def getTokenFn (s : Store) : Store × Option String := (s, s.token)

/-- Embeds `setToken(t)` (lines 8–11). -/
def setTokenFn (t : String) (_s : Store) : Store := { token := some t }

/-- Embeds `clearToken()` (lines 18–21). -/
def clearTokenFn (_s : Store) : Store := { token := none }

/-- What `fetch` did: threw (network/CORS) or produced a response. -/
inductive FetchOutcome where
  | netError (msg : String)
  | response (ok : Bool) (status : Nat) (body : String)

/-- The whole of `request` (lines 37–85), with the token store threaded
explicitly and the nondeterministic `fetch` outcome as a parameter.
Returns the store as `request` leaves it, plus resolve/throw. -/
def request (path : String) (callerHeaders : List (String × String))
    (auth : Bool) (outcome : FetchOutcome) (s : Store) :
    Store × Except String Json :=
  let (s1, tok) := if auth then getTokenFn s else (s, none)
  let _headers := requestHeaders callerHeaders auth tok
  match outcome with
  | .netError m =>
    (s1, .error ("Network/CORS error calling " ++ API_BASE ++ path ++ ". " ++
      "Check NEXT_PUBLIC_API_BASE and backend CORS. " ++ "(" ++ m ++ ")"))
  | .response ok status body => (s1, handleResponse ok status body)

/-! ### The older client variant (`src/unnamed/part_000`, lines 31–39)

`const headers = { Accept: "application/json", ...(options.headers) };
if (options.body && !("Content-Type" in headers))
  headers["Content-Type"] = "application/json";` -/

def legacyBaseHeaders (callerHeaders : List (String × String)) :
    List (String × String) :=
  hmerge [("Accept", "application/json")] callerHeaders

def legacyHeaders (callerHeaders : List (String × String))
    (bodyPresent : Bool) : List (String × String) :=
  if bodyPresent && !(hasKey (legacyBaseHeaders callerHeaders) "Content-Type")
  then hset (legacyBaseHeaders callerHeaders) "Content-Type" "application/json"
  else legacyBaseHeaders callerHeaders

/-! ## `encodeURIComponent` and the `api.*` path builders -/

/-- ECMAScript `uriUnescaped`: ASCII letters, digits, and the marks
`- _ . ! ~ * ' ( )` pass through `encodeURIComponent` unchanged. -/
def uriUnescaped (c : Char) : Bool :=
  c.isAlpha || c.isDigit ||
    c == '-' || c == '_' || c == '.' || c == '!' || c == '~' || c == '*' ||
    c == Char.ofNat 39 || c == '(' || c == ')'

def hexDigitUpper (n : Nat) : Char :=
  (['0', '1', '2', '3', '4', '5', '6', '7', '8', '9',
    'A', 'B', 'C', 'D', 'E', 'F']).getD n '0'

/-- UTF-8 bytes of a code point (Lean `Char` excludes surrogates, as do
well-formed JS strings fed to `encodeURIComponent`). -/
def utf8Bytes (u : Nat) : List Nat :=
  if u < 0x80 then [u]
  else if u < 0x800 then
    [0xc0 + u / 64, 0x80 + u % 64]
  else if u < 0x10000 then
    [0xe0 + u / 4096, 0x80 + (u / 64) % 64, 0x80 + u % 64]
  else
    [0xf0 + u / 262144, 0x80 + (u / 4096) % 64, 0x80 + (u / 64) % 64,
      0x80 + u % 64]

def percentByte (b : Nat) : List Char :=
  ['%', hexDigitUpper (b / 16), hexDigitUpper (b % 16)]

def encodeChar (c : Char) : List Char :=
  if uriUnescaped c then [c]
  else (utf8Bytes c.toNat).foldr (fun b acc => percentByte b ++ acc) []

def encodeURIComponent (s : String) : String :=
  String.mk (s.data.foldr (fun c acc => encodeChar c ++ acc) [])

/-- Path of `api.addPointer` (line 132): `/patients/${enc(id)}/pointers`. -/
def addPointerPath (patientIdentifier : String) : String :=
  "/patients/" ++ encodeURIComponent patientIdentifier ++ "/pointers"

/-- Path of `api.grantConsent` (line 145) and `api.getConsentsForPatient`
(line 155): `/consents/patients/${enc(id)}`. -/
def consentsForPatientPath (patientIdentifier : String) : String :=
  "/consents/patients/" ++ encodeURIComponent patientIdentifier

/-- Path of `api.revokeConsent` (line 167): `/consents/${enc(id)}/revoke`. -/
def revokeConsentPath (consentId : String) : String :=
  "/consents/" ++ encodeURIComponent consentId ++ "/revoke"

/-- Path of `api.getRecords` (line 183):
`/records/patients/${enc(id)}?scope=${enc(scope)}`. -/
def getRecordsPath (patientIdentifier scope : String) : String :=
  "/records/patients/" ++ encodeURIComponent patientIdentifier ++
    "?scope=" ++ encodeURIComponent scope

/-- Path of `api.getMyRecords` (line 207): `/records/me?scope=${enc(scope)}`. -/
def getMyRecordsPath (scope : String) : String :=
  "/records/me?scope=" ++ encodeURIComponent scope

/-- RFC 3986 §2.2 reserved characters: gen-delims and sub-delims. -/
def rfcReserved : List Char :=
  [':', '/', '?', '#', Char.ofNat 91, Char.ofNat 93, '@',
   '!', '$', '&', Char.ofNat 39, '(', ')', '*', '+', ',', ';', '=']

/-- The reserved characters `encodeURIComponent` *does* escape: all
gen-delims plus the sub-delims `$ & + , ; =`.  (The sub-delims
`! ' ( ) *` are in the ECMAScript unescaped set and pass through.) -/
def escapedDelims : List Char :=
  [':', '/', '?', '#', Char.ofNat 91, Char.ofNat 93, '@',
   '$', '&', '+', ',', ';', '=']

/-! ## `statusPill` (`src/app/_components/ConsentDashboard.tsx`, 12–17)

`new Date(expires_at).getTime()` is modelled by its outcome: `some`
milliseconds when the date parses, `none` for `NaN`. -/

def statusPill (revoked : Bool) (expiresMs : Option Int) (nowMs : Int) :
    String :=
  if revoked then "Revoked"
  else
    match expiresMs with
    | some e => if e < nowMs then "Expired" else "Active"
    | none => "Active"

/-! ## Patient page (`src/app/patient/page.tsx`) -/

/-- Bool-valued substring test (JS `haystack.includes(needle)`). -/
def containsSub (needle : List Char) : List Char → Bool
  | [] => needle.isEmpty
  | c :: rest => needle.isPrefixOf (c :: rest) || containsSub needle rest

/-- ASCII lowering, the fragment of `toLowerCase()` the heuristic's
needles (all ASCII) can observe. -/
def lowerChar (c : Char) : Char :=
  if 'A' ≤ c && c ≤ 'Z' then Char.ofNat (c.toNat + 32) else c

/-- Lines 112–121: the auth-failure heuristic.  `msg` is
`string | undefined`; `(msg || "")` maps `undefined` to `""`. -/
def isAuthErrorMessage (msg : Option String) : Bool :=
  let m := (match msg with | some s => s | none => "").data.map lowerChar
  containsSub "not authenticated".data m ||
    containsSub "unauthorized".data m ||
    containsSub "401".data m ||
    containsSub "invalid token".data m ||
    containsSub "token".data m

/-- The patient page state that `handleAuthFailure` touches, together
with the token store it clears. -/
structure PatientSt where
  store : Store
  authed : Bool
  profile : Option (String × String)
  result : Option Json
  selected : Nat
  err : String

/-- Lines 321–328: `clearToken(); setAuthed(false); setProfile(null);
setResult(null); setSelected(0);
setErr(message || "Not authenticated. Please log in again.");`. -/
def handleAuthFailure (message : Option String) (s : PatientSt) : PatientSt :=
  { s with
    store := clearTokenFn s.store
    authed := false
    profile := none
    result := none
    selected := 0
    err :=
      match message with
      | some m => if m = "" then "Not authenticated. Please log in again." else m
      | none => "Not authenticated. Please log in again." }

/-- The shared catch block of `loginPatient`, `registerSelf`,
`fetchMyRecords`, `grantDoctorAccess`, `createAndLinkFromCatalog` and
`addMyPointer`: `const msg = e?.message ?? "Failed";
if (isAuthErrorMessage(msg)) handleAuthFailure(msg); else setErr(msg);`. -/
def patientOnCatch (emsg : Option String) (s : PatientSt) : PatientSt :=
  let msg := match emsg with | some m => m | none => "Failed"
  if isAuthErrorMessage (some msg) then handleAuthFailure (some msg) s
  else { s with err := msg }

/-! ## Doctor page (`src/app/doctor/page.tsx`) -/

/-- The doctor page state that `fetchRecords` touches, with the token
store it could — but does not — clear. -/
structure DoctorSt where
  store : Store
  err : String
  result : Option Json
  selected : Nat
  loading : Bool

/-- Embeds `fetchRecords` (lines 142–155) when `api.getRecords` throws: the
pre-try resets plus `catch { setErr(e.message ?? "Failed") }` and
`finally { setLoading(false) }`.  The token store is untouched. -/
def doctorFetchRecordsOnError (emsg : Option String) (s : DoctorSt) :
    DoctorSt :=
  { s with
    err := match emsg with | some m => m | none => "Failed"
    result := none
    selected := 0
    loading := false }

/-! ## The catalog wizard (`src/app/patient/page.tsx`) -/

inductive SourceMode where
  | hospital
  | other
deriving DecidableEq

/-- The slice of `PatientPage` state driving the catalog stepper. -/
structure Wiz where
  step : Int
  catScope : String
  catItem : String
  catIssuer : String
  sourceMode : SourceMode
  hospitalSource : Option String
  loading : Bool

/-- Embeds `clampCatStep` (lines 330–333): `Math.max(1, Math.min(4, next))`. -/
def clampCat (n : Int) : Int := max 1 (min 4 n)

/-- Every event that can change the wizard state:
`Back`/`Next`/`Continue` buttons (all through `clampCatStep`), the field
`onChange` handlers, and the three auto-advance effects
(lines 298–314). -/
inductive WizEv where
  | back
  | next
  | goto (k : Int)
  | chooseScope (v item : String)
  | chooseItem (v : String)
  | chooseSource (m : SourceMode)
  | setIssuer (v : String)
  | autoScope
  | autoItem
  | autoIssuer

def isAuto : WizEv → Bool
  | .autoScope | .autoItem | .autoIssuer => true
  | _ => false

/-- One wizard step.  Auto-advance guards are the source's:
`catScope && catStep < 2`, `catItem && catStep < 3`,
`catIssuer?.trim()?.length >= 2 && catStep < 4`. -/
def wizStep (e : WizEv) (s : Wiz) : Wiz :=
  match e with
  | .back => { s with step := clampCat (s.step - 1) }
  | .next => { s with step := clampCat (s.step + 1) }
  | .goto k => { s with step := clampCat k }
  | .chooseScope v item =>
    { s with catScope := v, catItem := item, step := clampCat 2 }
  | .chooseItem v => { s with catItem := v }
  | .chooseSource m =>
    { s with
      sourceMode := m
      catIssuer :=
        match m, s.hospitalSource with
        | .hospital, some h => h
        | _, _ => s.catIssuer }
  | .setIssuer v => { s with catIssuer := v }
  | .autoScope =>
    if s.catScope ≠ "" ∧ s.step < 2 then { s with step := 2 } else s
  | .autoItem =>
    if s.catItem ≠ "" ∧ s.step < 3 then { s with step := 3 } else s
  | .autoIssuer =>
    if 2 ≤ s.catIssuer.trim.length ∧ s.step < 4 then { s with step := 4 }
    else s

/-- The field-validity guard of each auto-advance effect, as the claim
words it: non-empty category, non-empty item, trimmed source text of
length at least 2. -/
def autoGuard : WizEv → Wiz → Bool
  | .autoScope, s => s.catScope != ""
  | .autoItem, s => s.catItem != ""
  | .autoIssuer, s => decide (2 ≤ s.catIssuer.trim.length)
  | _, _ => true

def runWiz (es : List WizEv) (s : Wiz) : Wiz :=
  es.foldl (fun a e => wizStep e a) s

/-- The initial wizard state (`useState` defaults, lines 199–235):
step 1, category `"immunizations"`, item `CATALOG.immunizations[0]`,
issuer `"Self (Patient)"`, source mode `"hospital"`, no hospital. -/
def wizInit : Wiz :=
  { step := 1
    catScope := "immunizations"
    catItem := "Polio"
    catIssuer := "Self (Patient)"
    sourceMode := .hospital
    hospitalSource := none
    loading := false }

/-- The Create & Link button (lines 1080–1086): rendered only at step 4,
`disabled = loading || !catItem || (sourceMode === "other" &&
!catIssuer.trim())`.  Note it does *not* consult `hospitalSource`. -/
def createEnabled (s : Wiz) : Bool :=
  s.step == 4 && !s.loading && s.catItem != "" &&
    !(decide (s.sourceMode = .other) && s.catIssuer.trim == "")

/-! ## Supporting lemmas -/

theorem hasKey_eq_false_iff (hs : List (String × String)) (k : String) :
    hasKey hs k = false ↔ ∀ p ∈ hs, p.1 ≠ k := by
  unfold hasKey
  rw [← Bool.not_eq_true, List.any_eq_true]
  push_neg
  constructor
  · intro h p hp
    have := h p hp
    simpa using this
  · intro h p hp
    have := h p hp
    simpa using this

/-! ## Claims -/

/-- Claim C1: For every call through the HTTP request client: with
`auth=true` and a stored token `t`, the outgoing headers map
`"Authorization"` to `"Bearer " ++ t` (the template literal
`` `Bearer ${token}` ``, one space, case-sensitive); with `auth=true` and
no stored token, no `Authorization` entry is present (hypothesis: the
caller options carry no `Authorization` header, which holds for every
call site in the repository — none passes custom headers), and the
request is still issued: its outcome is processed exactly as it would be
with a token present. -/
theorem c1_authorization_header (ch : List (String × String)) (t : String)
    (hnoauth : hget ch "Authorization" = none) :
    hget (requestHeaders ch true (some t)) "Authorization" =
      some ("Bearer " ++ t) ∧
    hget (requestHeaders ch true none) "Authorization" = none ∧
    (∀ path outcome,
      (request path ch true outcome { token := none }).2 =
        (request path ch true outcome { token := some t }).2) := by
  refine ⟨?_, ?_, ?_⟩
  · unfold requestHeaders
    simp only [if_pos]
    exact hget_hset_self (baseHeaders ch) "Authorization" ("Bearer " ++ t)
  · unfold requestHeaders baseHeaders
    simp only [if_pos]
    have hc : ∀ p ∈ ch, p.1 ≠ "Authorization" :=
      (hget_eq_none_iff ch "Authorization").mp hnoauth
    rw [hget_hmerge_absent _ ch _ hc]
    decide
  · intro path outcome
    cases outcome <;> rfl

theorem c1_witness :
    hget (requestHeaders [] true (some "tok")) "Authorization" =
      some ("Bearer " ++ "tok") ∧
    hget (requestHeaders [] true none) "Authorization" = none :=
  ⟨(c1_authorization_header [] "tok" rfl).1,
    (c1_authorization_header [] "tok" rfl).2.1⟩

/-- Claim C8: `request` reads the token store but never writes it: whatever
the arguments and the fetch outcome (success, application error, network
error), the store after the call is the store before it. -/
theorem c8_request_preserves_store (path : String)
    (ch : List (String × String)) (auth : Bool) (outcome : FetchOutcome)
    (s : Store) : (request path ch auth outcome s).1 = s := by
  cases auth <;> cases outcome <;> rfl

/-- Claim C10: On a success status the client never throws: it resolves
with `bodyToData text`, which is the JSON-parsed value when the body
parses, the raw body text when the body is non-empty but not JSON, and
`null` (here `Json.null`) when the body is empty. -/
theorem c10_success_resolves (status : Nat) (text : String) :
    handleResponse true status text = .ok (bodyToData text) ∧
    bodyToData "" = Json.null ∧
    (text ≠ "" → ∀ j, jsonParse text = some j → bodyToData text = j) ∧
    (text ≠ "" → jsonParse text = none → bodyToData text = Json.str text) := by
  refine ⟨rfl, rfl, ?_, ?_⟩
  · intro h j hj
    unfold bodyToData
    rw [if_neg h, hj]
  · intro h hn
    unfold bodyToData
    rw [if_neg h, hn]

theorem c10_witness :
    handleResponse true 200 "hi" = .ok (bodyToData "hi") ∧
    bodyToData "hi" = Json.str "hi" :=
  ⟨(c10_success_resolves 200 "hi").1,
    (c10_success_resolves 200 "hi").2.2.2 (by decide) rfl⟩

/-- Claim C2, counterexample: A non-2xx response whose JSON body is
`{"detail":""}` *has* a `detail` field, so the claim's priority order
demands the thrown message `""`; the code's `||` chain skips the falsy
`""` and throws the status fallback instead. -/
theorem c2_counterexample :
    jsonParse "\x7b\"detail\":\"\"\x7d" =
      some (Json.obj [("detail", Json.str "")]) ∧
    handleResponse false 500 "\x7b\"detail\":\"\"\x7d" =
      .error "Request failed (500)" ∧
    ("Request failed (500)" : String) ≠ "" := by
  refine ⟨rfl, rfl, by decide⟩

/-- Claim C2, amended: The thrown message is the first *truthy* value of
the chain `data?.detail || data?.message ||
(typeof data === "string" ? data : null) || "Request failed (<status>)"`,
where `data` is the JSON-parsed body (raw text when parsing fails, `null`
when empty): a truthy `detail` wins; else a truthy `message`; else the
data itself when it is a non-empty string (the raw text of a non-JSON
body, or a JSON body that is itself a string); else the status fallback.
In particular an empty body (`data = null`) yields the fallback and
`{"detail":"X"}` yields exactly `"X"`. -/
theorem c2_error_message_priority (status : Nat) (data : Json) :
    (∀ v, jsField data "detail" = some v → truthy v = true →
      errorMessage data status = jsToString v) ∧
    (pickTruthy (jsField data "detail") = none →
      ∀ v, jsField data "message" = some v → truthy v = true →
        errorMessage data status = jsToString v) ∧
    (pickTruthy (jsField data "detail") = none →
      pickTruthy (jsField data "message") = none →
      ∀ s, data = Json.str s → s ≠ "" → errorMessage data status = s) ∧
    (pickTruthy (jsField data "detail") = none →
      pickTruthy (jsField data "message") = none →
      (∀ s, data = Json.str s → s = "") →
      errorMessage data status =
        "Request failed (" ++ toString status ++ ")") ∧
    errorMessage Json.null status =
      "Request failed (" ++ toString status ++ ")" ∧
    errorMessage (Json.obj [("detail", Json.str "X")]) status = "X" := by
  refine ⟨?_, ?_, ?_, ?_, rfl, rfl⟩
  · intro v hv ht
    unfold errorMessage errMsgVal
    rw [hv]
    simp [pickTruthy, ht]
  · intro hd v hv ht
    unfold errorMessage errMsgVal
    rw [hd, hv]
    simp [pickTruthy, ht]
  · intro hd hm s hs hne
    unfold errorMessage errMsgVal
    rw [hd, hm, hs]
    have ht : truthy (Json.str s) = true := by
      simpa [truthy] using hne
    simp [pickTruthy, ht, jsToString]
  · intro hd hm hstr
    unfold errorMessage errMsgVal
    rw [hd, hm]
    cases data with
    | str s =>
      have : s = "" := hstr s rfl
      subst this
      simp [pickTruthy, truthy, jsToString]
    | null => simp [pickTruthy, jsToString]
    | bool b => simp [pickTruthy, jsToString]
    | num n => simp [pickTruthy, jsToString]
    | arr xs => simp [pickTruthy, jsToString]
    | obj fs => simp [pickTruthy, jsToString]

theorem c2_witness :
    errorMessage (Json.obj [("detail", Json.str "nope")]) 404 = "nope" :=
  (c2_error_message_priority 404 (Json.obj [("detail", Json.str "nope")])).1
    (Json.str "nope") rfl (by decide)

/-- Claim C4: The displayed consent status (for a grant whose `expires_at`
parses to a timestamp): `"Revoked"` exactly when the `revoked` flag is
set, regardless of expiry; else `"Expired"` exactly when the current time
is strictly past the expiry; else `"Active"`.  (A grant whose expiry does
not parse — `NaN` — renders `"Active"`; the claim's comparison does not
apply to it.) -/
theorem c4_status_pill (r : Bool) (e now : Int) :
    (statusPill r (some e) now = "Revoked" ↔ r = true) ∧
    (statusPill r (some e) now = "Expired" ↔ r = false ∧ now > e) ∧
    (statusPill r (some e) now = "Active" ↔ r = false ∧ now ≤ e) := by
  cases r with
  | true => refine ⟨by simp [statusPill], ?_, ?_⟩ <;> simp [statusPill]
  | false =>
    by_cases h : e < now
    · refine ⟨?_, ?_, ?_⟩ <;>
        simp [statusPill, h, gt_iff_lt, not_le.mpr h]
    · refine ⟨?_, ?_, ?_⟩ <;>
        simp [statusPill, h, gt_iff_lt, not_lt.mp h]

/-- A doctor page state holding a token, about to see an auth error. -/
def doctorPreErr : DoctorSt :=
  { store := { token := some "tok" }
    err := ""
    result := none
    selected := 0
    loading := true }

/-- Claim C3, counterexample: The doctor page's `fetchRecords` catch block
(lines 150–152) only does `setErr(e.message ?? "Failed")`: when
`api.getRecords` throws `"401 Unauthorized"` — which matches the
auth-failure heuristic — the token store is *not* cleared.  The claim's
"every page-level controller" is false; only the patient page's main
handlers clear it. -/
theorem c3_counterexample :
    isAuthErrorMessage (some "401 Unauthorized") = true ∧
    (doctorFetchRecordsOnError (some "401 Unauthorized")
        doctorPreErr).store.token = some "tok" := by
  exact ⟨by decide, rfl⟩

/-- Claim C3, amended: When an API call throws a message matching the
auth-failure heuristic, the *patient page's* shared catch block (used by
`loginPatient`, `registerSelf`, `fetchMyRecords`, `grantDoctorAccess`,
`createAndLinkFromCatalog`, `addMyPointer`) runs `handleAuthFailure`,
clearing the token store and resetting profile, fetched records and
selection index; the doctor page's `fetchRecords` (and likewise the
consent dashboard and the patient page's hospital/provider calls) only
records the message and leaves the token store untouched. -/
theorem c3_auth_failure_reset (m : String) (p : PatientSt) (d : DoctorSt)
    (h : isAuthErrorMessage (some m) = true) :
    patientOnCatch (some m) p = handleAuthFailure (some m) p ∧
    (patientOnCatch (some m) p).store.token = none ∧
    (patientOnCatch (some m) p).profile = none ∧
    (patientOnCatch (some m) p).result = none ∧
    (patientOnCatch (some m) p).selected = 0 ∧
    (doctorFetchRecordsOnError (some m) d).store = d.store := by
  have hp : patientOnCatch (some m) p = handleAuthFailure (some m) p := by
    simp [patientOnCatch, h]
  refine ⟨hp, ?_, ?_, ?_, ?_, rfl⟩ <;>
    rw [hp] <;> simp [handleAuthFailure, clearTokenFn]

/-- A patient page state holding a token, about to see an auth error. -/
def patientPreErr : PatientSt :=
  { store := { token := some "t0" }
    authed := true
    profile := some ("id0", "pub0")
    result := some Json.null
    selected := 3
    err := "" }

theorem c3_witness :
    isAuthErrorMessage (some "Invalid token") = true ∧
    (patientOnCatch (some "Invalid token") patientPreErr).store.token =
      none ∧
    (doctorFetchRecordsOnError (some "Invalid token") doctorPreErr).store =
      doctorPreErr.store :=
  ⟨by decide,
    (c3_auth_failure_reset "Invalid token" patientPreErr doctorPreErr
      (by decide)).2.1,
    (c3_auth_failure_reset "Invalid token" patientPreErr doctorPreErr
      (by decide)).2.2.2.2.2⟩

/-- Step bounds are preserved by every single wizard event. -/
theorem wizStep_bounds (e : WizEv) (s : Wiz) (h1 : 1 ≤ s.step)
    (h4 : s.step ≤ 4) :
    1 ≤ (wizStep e s).step ∧ (wizStep e s).step ≤ 4 := by
  have hc : ∀ n : Int, 1 ≤ clampCat n ∧ clampCat n ≤ 4 := by
    intro n
    unfold clampCat
    constructor
    · exact le_max_left 1 (min 4 n)
    · exact max_le (by norm_num) (min_le_left 4 n)
  cases e with
  | back => exact hc _
  | next => exact hc _
  | goto k => exact hc _
  | chooseScope v item => exact hc _
  | chooseItem v => exact ⟨h1, h4⟩
  | chooseSource m => exact ⟨h1, h4⟩
  | setIssuer v => exact ⟨h1, h4⟩
  | autoScope =>
    show 1 ≤ (if s.catScope ≠ "" ∧ s.step < 2 then { s with step := 2 }
        else s).step ∧
      (if s.catScope ≠ "" ∧ s.step < 2 then { s with step := 2 }
        else s).step ≤ 4
    by_cases hg : s.catScope ≠ "" ∧ s.step < 2
    · rw [if_pos hg]; exact ⟨by norm_num, by norm_num⟩
    · rw [if_neg hg]; exact ⟨h1, h4⟩
  | autoItem =>
    show 1 ≤ (if s.catItem ≠ "" ∧ s.step < 3 then { s with step := 3 }
        else s).step ∧
      (if s.catItem ≠ "" ∧ s.step < 3 then { s with step := 3 }
        else s).step ≤ 4
    by_cases hg : s.catItem ≠ "" ∧ s.step < 3
    · rw [if_pos hg]; exact ⟨by norm_num, by norm_num⟩
    · rw [if_neg hg]; exact ⟨h1, h4⟩
  | autoIssuer =>
    show 1 ≤ (if 2 ≤ s.catIssuer.trim.length ∧ s.step < 4 then
        { s with step := 4 } else s).step ∧
      (if 2 ≤ s.catIssuer.trim.length ∧ s.step < 4 then
        { s with step := 4 } else s).step ≤ 4
    by_cases hg : 2 ≤ s.catIssuer.trim.length ∧ s.step < 4
    · rw [if_pos hg]; exact ⟨by norm_num, by norm_num⟩
    · rw [if_neg hg]; exact ⟨h1, h4⟩

/-- Claim C5: For every sequence of catalog-wizard events the step index
stays in `[1, 4]`; no auto-advance event ever decreases the step; and an
auto-advance event changes the step only when its triggering field is
valid (non-empty category, non-empty item, trimmed source text of length
at least 2). -/
theorem c5_wizard_step_invariant :
    (∀ (es : List WizEv) (s : Wiz), 1 ≤ s.step → s.step ≤ 4 →
      1 ≤ (runWiz es s).step ∧ (runWiz es s).step ≤ 4) ∧
    (∀ (e : WizEv) (s : Wiz), isAuto e = true →
      s.step ≤ (wizStep e s).step) ∧
    (∀ (e : WizEv) (s : Wiz), isAuto e = true →
      (wizStep e s).step ≠ s.step → autoGuard e s = true) := by
  refine ⟨?_, ?_, ?_⟩
  · intro es
    induction es with
    | nil => intro s h1 h4; exact ⟨h1, h4⟩
    | cons e t ih =>
      intro s h1 h4
      have := wizStep_bounds e s h1 h4
      exact ih (wizStep e s) this.1 this.2
  · intro e s ha
    cases e <;> simp [isAuto] at ha
    case autoScope =>
      show s.step ≤ (if s.catScope ≠ "" ∧ s.step < 2 then
        { s with step := 2 } else s).step
      by_cases hg : s.catScope ≠ "" ∧ s.step < 2
      · rw [if_pos hg]; exact le_of_lt hg.2
      · rw [if_neg hg]
    case autoItem =>
      show s.step ≤ (if s.catItem ≠ "" ∧ s.step < 3 then
        { s with step := 3 } else s).step
      by_cases hg : s.catItem ≠ "" ∧ s.step < 3
      · rw [if_pos hg]; exact le_of_lt hg.2
      · rw [if_neg hg]
    case autoIssuer =>
      show s.step ≤ (if 2 ≤ s.catIssuer.trim.length ∧ s.step < 4 then
        { s with step := 4 } else s).step
      by_cases hg : 2 ≤ s.catIssuer.trim.length ∧ s.step < 4
      · rw [if_pos hg]; exact le_of_lt hg.2
      · rw [if_neg hg]
  · intro e s ha hne
    cases e <;> simp [isAuto] at ha
    case autoScope =>
      unfold wizStep at hne
      by_cases hg : s.catScope ≠ "" ∧ s.step < 2
      · simpa [autoGuard] using hg.1
      · rw [if_neg hg] at hne; exact absurd rfl hne
    case autoItem =>
      unfold wizStep at hne
      by_cases hg : s.catItem ≠ "" ∧ s.step < 3
      · simpa [autoGuard] using hg.1
      · rw [if_neg hg] at hne; exact absurd rfl hne
    case autoIssuer =>
      unfold wizStep at hne
      by_cases hg : 2 ≤ s.catIssuer.trim.length ∧ s.step < 4
      · simpa [autoGuard] using hg.1
      · rw [if_neg hg] at hne; exact absurd rfl hne

theorem c5_witness :
    1 ≤ (runWiz [WizEv.next, WizEv.autoIssuer, WizEv.back] wizInit).step ∧
    (runWiz [WizEv.next, WizEv.autoIssuer, WizEv.back] wizInit).step ≤ 4 :=
  c5_wizard_step_invariant.1 [WizEv.next, WizEv.autoIssuer, WizEv.back]
    wizInit (by decide) (by decide)

/-- Claim C6, counterexample: At step 4 in `"hospital"` source mode with
*no* hospital selected (the initial `useState` configuration after
stepping to 4), the Create & Link button is enabled: its `disabled`
expression never consults `hospitalSource`.  The claim's "hospital
actually selected" conjunct is false. -/
theorem c6_counterexample :
    createEnabled { wizInit with step := 4 } = true ∧
    ¬(({ wizInit with step := 4 }.sourceMode = SourceMode.hospital ∧
        { wizInit with step := 4 }.hospitalSource ≠ none) ∨
      ({ wizInit with step := 4 }.sourceMode = SourceMode.other ∧
        { wizInit with step := 4 }.catIssuer.trim ≠ "")) := by
  refine ⟨by decide, ?_⟩
  intro h
  rcases h with ⟨_, hn⟩ | ⟨hm, _⟩
  · exact hn rfl
  · exact absurd hm (by decide)

/-- Claim C6, amended: The Create & Link action is enabled exactly when the
step index is 4, no request is in flight, the catalog item is non-empty,
and — only in `"other"` source mode — the trimmed source text is
non-empty.  In `"hospital"` mode no check that a hospital is selected is
performed. -/
theorem c6_create_enabled_iff (s : Wiz) :
    createEnabled s = true ↔
      s.step = 4 ∧ s.loading = false ∧ s.catItem ≠ "" ∧
        (s.sourceMode = SourceMode.other → s.catIssuer.trim ≠ "") := by
  unfold createEnabled
  cases hm : s.sourceMode <;>
    simp [Bool.and_eq_true, beq_iff_eq, bne_iff_ne, hm,
      Bool.not_eq_true', and_assoc]

/-! ### C9: header defaults -/

/-- Claim C9, counterexample: In the live client (`src/lib/api.ts`), a
request with no caller headers and no body — e.g. `api.getMyConsents()` —
carries `Content-Type: application/json` anyway and no `Accept` header at
all: the claimed `Accept` default does not exist and the JSON content
type is not conditioned on a body being present. -/
theorem c9_counterexample :
    hget (requestHeaders [] false none) "Content-Type" =
      some "application/json" ∧
    hget (requestHeaders [] false none) "Accept" = none := by
  exact ⟨rfl, rfl⟩

/-- Claim C9, amended: The live client (`src/lib/api.ts`) merges caller
headers over the single default `Content-Type: application/json`, so the
JSON content type is sent whenever the caller does not supply a content
type — body or not — and there is no `Accept` default.  The older client
variant (`src/unnamed/part_000`) behaves as the claim states: it merges
caller headers over `Accept: application/json` and adds
`Content-Type: application/json` exactly when a body is present and the
caller did not set a content type. -/
theorem c9_header_defaults (ch : List (String × String)) (bodyPresent : Bool)
    (hnoCT : ∀ p ∈ ch, p.1 ≠ "Content-Type")
    (hnoAcc : ∀ p ∈ ch, p.1 ≠ "Accept") :
    hget (baseHeaders ch) "Content-Type" = some "application/json" ∧
    hget (baseHeaders ch) "Accept" = none ∧
    hget (legacyHeaders ch bodyPresent) "Accept" = some "application/json" ∧
    hget (legacyHeaders ch bodyPresent) "Content-Type" =
      (if bodyPresent then some "application/json" else none) := by
  have hb : hget (legacyBaseHeaders ch) "Content-Type" = none := by
    unfold legacyBaseHeaders
    rw [hget_hmerge_absent _ ch _ hnoCT]
    decide
  have hk : hasKey (legacyBaseHeaders ch) "Content-Type" = false := by
    rw [hasKey_eq_false_iff]
    exact (hget_eq_none_iff _ _).mp hb
  have ha : hget (legacyBaseHeaders ch) "Accept" = some "application/json" := by
    unfold legacyBaseHeaders
    rw [hget_hmerge_absent _ ch _ hnoAcc]
    decide
  refine ⟨?_, ?_, ?_, ?_⟩
  · unfold baseHeaders
    rw [hget_hmerge_absent _ ch _ hnoCT]
    decide
  · unfold baseHeaders
    rw [hget_hmerge_absent _ ch _ hnoAcc]
    decide
  · unfold legacyHeaders
    cases bodyPresent with
    | false => simpa using ha
    | true =>
      rw [hk]
      simpa [hget_hset_other _ "Accept" "Content-Type" _ (by decide)] using ha
  · unfold legacyHeaders
    cases bodyPresent with
    | false => simpa using hb
    | true =>
      rw [hk]
      simp [hget_hset_self]

theorem c9_witness :
    hget (baseHeaders []) "Content-Type" = some "application/json" ∧
    hget (baseHeaders []) "Accept" = none ∧
    hget (legacyHeaders [] true) "Content-Type" = some "application/json" ∧
    hget (legacyHeaders [] false) "Content-Type" = none := by
  refine ⟨(c9_header_defaults [] true (by simp) (by simp)).1,
    (c9_header_defaults [] true (by simp) (by simp)).2.1,
    ?_, ?_⟩
  · have := (c9_header_defaults [] true (by simp) (by simp)).2.2.2
    simpa using this
  · have := (c9_header_defaults [] false (by simp) (by simp)).2.2.2
    simpa using this

/-! ### C7: percent-escaping of interpolated identifiers -/

theorem unescaped_not_delim : ∀ c ∈ escapedDelims, uriUnescaped c = false := by
  decide

theorem hexDigitUpper_lt_not_delim :
    ∀ k, k < 16 → hexDigitUpper k ∉ escapedDelims := by
  decide

theorem hexDigitUpper_not_delim (k : Nat) :
    hexDigitUpper k ∉ escapedDelims := by
  by_cases hk : k < 16
  · exact hexDigitUpper_lt_not_delim k hk
  · unfold hexDigitUpper
    rw [List.getD_eq_default _ _ (by simpa using Nat.le_of_not_lt hk)]
    decide

theorem mem_percentByte_not_delim (b : Nat) (c : Char)
    (h : c ∈ percentByte b) : c ∉ escapedDelims := by
  unfold percentByte at h
  simp only [List.mem_cons, List.not_mem_nil, or_false] at h
  rcases h with h | h | h <;> subst h
  · decide
  · exact hexDigitUpper_not_delim (b / 16)
  · exact hexDigitUpper_not_delim (b % 16)

theorem mem_foldr_append {α β : Type} (f : α → List β) (l : List α) (c : β)
    (h : c ∈ l.foldr (fun a acc => f a ++ acc) []) : ∃ a ∈ l, c ∈ f a := by
  induction l with
  | nil => simp at h
  | cons a t ih =>
    rw [List.foldr_cons, List.mem_append] at h
    rcases h with h | h
    · exact ⟨a, List.mem_cons_self a t, h⟩
    · obtain ⟨a', ha', hc'⟩ := ih h
      exact ⟨a', List.mem_cons_of_mem a ha', hc'⟩

theorem encodeURIComponent_no_delim (s : String) (c : Char)
    (h : c ∈ (encodeURIComponent s).data) : c ∉ escapedDelims := by
  obtain ⟨d, _, hcd⟩ := mem_foldr_append encodeChar s.data c h
  unfold encodeChar at hcd
  by_cases hu : uriUnescaped d
  · rw [if_pos hu] at hcd
    have hcdeq : c = d := by simpa using hcd
    subst hcdeq
    intro hdel
    rw [unescaped_not_delim c hdel] at hu
    exact Bool.false_ne_true hu
  · rw [if_neg hu] at hcd
    obtain ⟨b, _, hcb⟩ := mem_foldr_append percentByte (utf8Bytes d.toNat) c hcd
    exact mem_percentByte_not_delim b c hcb

/-- Claim C7, counterexample: `encodeURIComponent` leaves the RFC 3986
sub-delims `! * ' ( )` unescaped (they are in ECMAScript's unescaped
set), so the patient identifier `"!"` flows into the pointer path as a
raw reserved character. -/
theorem c7_counterexample :
    '!' ∈ rfcReserved ∧ '!' ∈ "!".data ∧
    addPointerPath "!" = "/patients/!/pointers" ∧
    '!' ∈ (addPointerPath "!").data := by
  refine ⟨by decide, by decide, ?_, ?_⟩ <;> decide

/-- Claim C7, amended: Every identifier interpolated by `addPointerPath`,
`consentsForPatientPath` (used by both `grantConsent` and
`getConsentsForPatient`), `revokeConsentPath`, `getRecordsPath` and
`getMyRecordsPath` passes through `encodeURIComponent`, whose output
never contains a URL *delimiter* — any gen-delim `: / ? # [ ] @` or the
escaped sub-delims `$ & + , ; =` — so every such character in a built
path comes from the fixed route template, never from the input.  (The
remaining reserved characters `! * ' ( )` pass through unescaped, which
is what the original wording fails on.) -/
theorem c7_interpolation_escaped :
    (∀ (s : String) (c : Char),
      c ∈ (encodeURIComponent s).data → c ∉ escapedDelims) ∧
    (∀ (pid : String) (c : Char), c ∈ escapedDelims →
      c ∈ (addPointerPath pid).data →
      c ∈ ("/patients/" ++ "/pointers").data) ∧
    (∀ (pid : String) (c : Char), c ∈ escapedDelims →
      c ∈ (consentsForPatientPath pid).data →
      c ∈ "/consents/patients/".data) ∧
    (∀ (cid : String) (c : Char), c ∈ escapedDelims →
      c ∈ (revokeConsentPath cid).data →
      c ∈ ("/consents/" ++ "/revoke").data) ∧
    (∀ (pid scope : String) (c : Char), c ∈ escapedDelims →
      c ∈ (getRecordsPath pid scope).data →
      c ∈ ("/records/patients/" ++ "?scope=").data) ∧
    (∀ (scope : String) (c : Char), c ∈ escapedDelims →
      c ∈ (getMyRecordsPath scope).data →
      c ∈ "/records/me?scope=".data) := by
  refine ⟨encodeURIComponent_no_delim, ?_, ?_, ?_, ?_, ?_⟩
  · intro pid c hdel hc
    unfold addPointerPath at hc
    rw [String.data_append, String.data_append, List.mem_append,
      List.mem_append] at hc
    rw [String.data_append, List.mem_append]
    rcases hc with (hc | hc) | hc
    · exact Or.inl hc
    · exact absurd hdel (encodeURIComponent_no_delim pid c hc)
    · exact Or.inr hc
  · intro pid c hdel hc
    unfold consentsForPatientPath at hc
    rw [String.data_append, List.mem_append] at hc
    rcases hc with hc | hc
    · exact hc
    · exact absurd hdel (encodeURIComponent_no_delim pid c hc)
  · intro cid c hdel hc
    unfold revokeConsentPath at hc
    rw [String.data_append, String.data_append, List.mem_append,
      List.mem_append] at hc
    rw [String.data_append, List.mem_append]
    rcases hc with (hc | hc) | hc
    · exact Or.inl hc
    · exact absurd hdel (encodeURIComponent_no_delim cid c hc)
    · exact Or.inr hc
  · intro pid scope c hdel hc
    unfold getRecordsPath at hc
    rw [String.data_append, String.data_append, String.data_append,
      List.mem_append, List.mem_append, List.mem_append] at hc
    rw [String.data_append, List.mem_append]
    rcases hc with ((hc | hc) | hc) | hc
    · exact Or.inl hc
    · exact absurd hdel (encodeURIComponent_no_delim pid c hc)
    · exact Or.inr hc
    · exact absurd hdel (encodeURIComponent_no_delim scope c hc)
  · intro scope c hdel hc
    unfold getMyRecordsPath at hc
    rw [String.data_append, List.mem_append] at hc
    rcases hc with hc | hc
    · exact hc
    · exact absurd hdel (encodeURIComponent_no_delim scope c hc)

theorem c7_witness :
    '/' ∈ ("/patients/" ++ "/pointers").data :=
  c7_interpolation_escaped.2.1 "xyz" '/' (by decide) (by decide)

end Vivisys
